import Mathlib

/-!
Verification development for the RLLM (recursive language model) driver.

Shallow embedding of:
- `src/parsing.ts`  (code-block extraction and report formatting),
- `src/prompts.ts`  (prompt building),
- `src/sandbox.ts`  (the V8-isolate sandbox: injected bindings, execution
  state, sub-LLM call recording, final answer),
- `src/rlm.ts`      (the `RLLM.completion` iteration loop and accounting).

LLM-authored programs run in node's `vm` module, which is external to this
repository; a program's observable effects on the sandbox are therefore
abstracted as a list of `SandAct` actions - each constructor corresponds to
exactly one injected binding of `Sandbox.createContext`
(`print`/`console.log`, `console.error`/`warn`, `llm_query`, `FINAL`,
`FINAL_VAR`, and a top-level variable binding captured by `syncLocals`).
The sandbox state transitions for each binding are translated directly from
`src/sandbox.ts`.  Wall-clock quantities (`Date.now()` durations) are not
observable in the embedding; duration fields are carried as `0`.
-/

namespace Rllm

/-- TokenUsage (src/types.ts lines 66-70). -/
structure TokenUsage where
  promptTokens : Nat
  completionTokens : Nat
  totalTokens : Nat
deriving Repr, DecidableEq

/-- Component-wise zero, the accumulator start value of rlm.ts line 140. -/
def TokenUsage.zero : TokenUsage := ⟨0, 0, 0⟩

/-- RLLM.addUsage (src/rlm.ts lines 305-311): component-wise sum. -/
def addUsage (a b : TokenUsage) : TokenUsage :=
  ⟨a.promptTokens + b.promptTokens,
   a.completionTokens + b.completionTokens,
   a.totalTokens + b.totalTokens⟩

/-- ChatMessage (src/types.ts lines 28-33); the optional tool-call fields are
never set by the driver or sandbox and are omitted. -/
structure ChatMessage where
  role : String
  content : String
deriving Repr, DecidableEq

/-! ## JS string primitives used by parsing.ts

`findCodeBlocks` matches the regex `/(three backticks)repl\s*\n([\s\S]*?)\n(three backticks)/g`
against the text.  The embedding works on `List Char`; `\s` and
`String.prototype.trim` use the JS whitespace class below. -/

/-- JS whitespace class (`\s`, and the characters stripped by
`String.prototype.trim`): space, tab, LF, VT, FF, CR, NBSP, Unicode space
separators, LS, PS, NNBSP, MMSP, ideographic space, BOM. -/
def isJsSpace (c : Char) : Bool :=
  c.toNat == 0x20 || c.toNat == 0x09 || c.toNat == 0x0A || c.toNat == 0x0B ||
  c.toNat == 0x0C || c.toNat == 0x0D || c.toNat == 0xA0 || c.toNat == 0x1680 ||
  (0x2000 ≤ c.toNat && c.toNat ≤ 0x200A) || c.toNat == 0x2028 || c.toNat == 0x2029 ||
  c.toNat == 0x202F || c.toNat == 0x205F || c.toNat == 0x3000 || c.toNat == 0xFEFF

/-- JS `String.prototype.trim` on a character list: strip `isJsSpace`
characters from both ends. -/
def jsTrimList (l : List Char) : List Char :=
  ((l.dropWhile isJsSpace).reverse.dropWhile isJsSpace).reverse

/-- JS `String.prototype.trim`. -/
def jsTrim (s : String) : String := String.mk (jsTrimList s.data)

/-- Index of the first occurrence of `pat` in `s` (leftmost match position of
a literal pattern), `none` when `pat` does not occur. -/
def firstIdx (pat : List Char) : List Char → Option Nat
  | [] => if pat.isEmpty then some 0 else none
  | c :: rest =>
    if pat.isPrefixOf (c :: rest) then some 0
    else (firstIdx pat rest).map (· + 1)

/-- The literal opening of the fence regex: three backticks then `repl`. -/
def openFence : List Char := "```repl".data

/-- The literal closing of the fence regex: a newline then three backticks. -/
def closeFence : List Char := "\n```".data

/-- One candidate way to match the `\s*\n` part of the fence regex against
the text tail `s` that follows the opening literal: `k` whitespace characters,
then a newline, such that the closing literal occurs afterwards (so the rest
of the regex can succeed). -/
def fenceCand (s : List Char) (k : Nat) : Bool :=
  (s.take k).all isJsSpace && ((s.drop k).head? == some '\n') &&
  (firstIdx closeFence (s.drop (k + 1))).isSome

/-- The split the backtracking regex engine commits to for `\s*\n`: `\s*` is
greedy, so the largest viable `k` wins. -/
def bestWsSplit (s : List Char) : Option Nat :=
  ((List.range (s.length + 1)).reverse).find? (fenceCand s)

/-- Match the part of the fence regex after the opening literal against `s`:
`\s*\n` (greedy whitespace), then the lazy capture `([\s\S]*?)`, then the
closing literal (lazy capture means the earliest closing occurrence wins).
Returns the captured text and the remaining input after the closing literal. -/
def matchAfterOpen (s : List Char) : Option (List Char × List Char) :=
  match bestWsSplit s with
  | none => none
  | some k =>
    match firstIdx closeFence (s.drop (k + 1)) with
    | none => none
    | some e => some ((s.drop (k + 1)).take e, (s.drop (k + 1)).drop (e + 4))

/-- The `while ((match = pattern.exec(text)) !== null)` loop of
`findCodeBlocks` (parsing.ts lines 17-23): find the next occurrence of the
opening literal at which the whole regex matches, push the trimmed capture
when it is non-empty, and continue after the match (non-overlapping `/g`
semantics).  An occurrence of the opening literal at which the rest of the
regex cannot match is skipped (occurrences of the 7-character opening literal
cannot overlap, so the scan resumes 7 characters further).  `fuel` bounds the
recursion; every step consumes at least one character, so
`s.length + 1` is always sufficient. -/
def scanBlocks : Nat → List Char → List String
  | 0, _ => []
  | fuel + 1, s =>
    match firstIdx openFence s with
    | none => []
    | some i =>
      match matchAfterOpen ((s.drop i).drop 7) with
      | some (content, rest) =>
        let payload := jsTrimList content
        if payload.isEmpty then scanBlocks fuel rest
        else String.mk payload :: scanBlocks fuel rest
      | none => scanBlocks fuel ((s.drop i).drop 7)

/-- parsing.ts `findCodeBlocks` (lines 12-26): all `repl`-fenced code blocks
of `text`, each trimmed, empty payloads discarded, in match order. -/
def findCodeBlocks (text : String) : List String :=
  scanBlocks (text.data.length + 1) text.data

example : findCodeBlocks "```repl\nfoo\n```" = ["foo"] := by decide
example : findCodeBlocks "```repl code```" = [] := by decide
example : findCodeBlocks "x```repl\na\n``` mid ```repl\n b \n```tail" = ["a", "b"] := by decide
example : findCodeBlocks "```repl\n   \n```" = [] := by decide
example : findCodeBlocks "```repl  \n\nbody\n\n``` rest" = ["body"] := by decide

/-! ## Sandbox (src/sandbox.ts)

`Sandbox` holds a client, an optional system prompt for sub-LLM calls, the
loaded context and a V8 context handle, plus the mutable execution state of
lines 62-67.  The client and system prompt are constructor arguments and are
passed as explicit parameters below; the context value and the V8 handle are
not consulted by any state transition relevant to the claims and are omitted
from the state record.  Local values are JS values captured by reference;
the embedding carries them as their string rendering (the only observation
the code makes of a local value is `String(...)` in `FINAL_VAR`). -/

/-- LLMCallRecord (src/sandbox.ts lines 25-31).  `durationMs` is a wall-clock
difference of `Date.now()` calls, not observable in the embedding; it is
carried as `0`. -/
structure LLMCallRecord where
  prompt : String
  response : String
  model : Option String
  usage : TokenUsage
  durationMs : Nat
deriving Repr, DecidableEq

/-- The mutable execution state of a Sandbox instance
(src/sandbox.ts lines 62-67). -/
structure SandboxState where
  stdout : List String
  stderr : List String
  locals : List (String × String)
  llmCalls : List LLMCallRecord
  finalAnswer : Option String
deriving Repr, DecidableEq

/-- Field initialisers of a fresh Sandbox (src/sandbox.ts lines 63-67). -/
def SandboxState.initial : SandboxState := ⟨[], [], [], [], none⟩

/-- Model of `LLMClient.complete` (the CompletionService): a one-shot chat
completion returning the assistant text and token usage, or raising
(`Except.error` stands for a thrown transport error).  Only
`result.message.content` and `result.usage` are consumed by the driver and
the sandbox. -/
structure LLMClient where
  complete : List ChatMessage → Except String (String × TokenUsage)

/-- The state reset performed at the top of `Sandbox.createContext`
(src/sandbox.ts lines 87-92): stdout, stderr, the sub-call log and the final
answer are cleared; `locals` is NOT cleared.  `createContext` is invoked at
the start of every `execute` (line 232). -/
def createContextReset (st : SandboxState) : SandboxState :=
  { st with stdout := [], stderr := [], llmCalls := [], finalAnswer := none }

/-- The `FINAL` binding (src/sandbox.ts lines 112-115):
`this.finalAnswer = String(answer)` - an unconditional overwrite.  The action
carries the already-stringified value. -/
def applyFINAL (st : SandboxState) (answer : String) : SandboxState :=
  { st with finalAnswer := some answer }

/-- Quote characters stripped by the `FINAL_VAR` name cleanup regex. -/
def isQuoteChar (c : Char) : Bool := c.toNat == 34 || c.toNat == 39

/-- The `varName.trim().replace(regex-of-one-leading-or-trailing-quote, "")`
cleanup of `FINAL_VAR` (src/sandbox.ts line 117), applied after `jsTrimList`:
at most one leading and one trailing quote character are removed. -/
def stripNameQuotes (l : List Char) : List Char :=
  let l1 :=
    match l with
    | c :: rest => if isQuoteChar c then rest else l
    | [] => []
  match l1.reverse with
  | c :: rest => if isQuoteChar c then rest.reverse else l1
  | [] => []

/-- JS object property lookup `name in this.locals` / `this.locals[name]` on
the insertion-ordered association list. -/
def lookupLocal (locals : List (String × String)) (name : String) : Option String :=
  (locals.find? (fun p => p.1 == name)).map Prod.snd

/-- An apostrophe, kept out of string literals. -/
def apos : String := String.mk [Char.ofNat 39]

/-- The `FINAL_VAR` binding (src/sandbox.ts lines 116-124): resolve the
cleaned name against the persisted `this.locals` (the locals of PREVIOUS
executions - `syncLocals` has not yet run for the current program) and
overwrite the final answer with the stringified value, or with the
`Error: Variable ... not found` message. -/
def applyFINALVAR (st : SandboxState) (varName : String) : SandboxState :=
  let name := String.mk (stripNameQuotes (jsTrimList varName.data))
  match lookupLocal st.locals name with
  | some v => { st with finalAnswer := some v }
  | none =>
    { st with finalAnswer := some ("Error: Variable " ++ apos ++ name ++ apos ++ " not found") }

/-- The one-shot message list of a sub-LLM call (src/sandbox.ts lines
190-194): an optional system message, then the user prompt. -/
def subMessages (systemPrompt : Option String) (prompt : String) : List ChatMessage :=
  (match systemPrompt with
   | some sp => [ChatMessage.mk "system" sp]
   | none => []) ++ [ChatMessage.mk "user" prompt]

/-- `Sandbox.llmQuery` (src/sandbox.ts lines 187-212): consult the client
with `[optional system, user]`; on success push exactly one `LLMCallRecord`
and return the assistant text; on a thrown error return the descriptive
string `Error: LLM query failed - ...` WITHOUT pushing a record (the catch
block at lines 209-211 only returns). -/
def llmQuery (client : LLMClient) (systemPrompt : Option String) (st : SandboxState)
    (prompt : String) (model : Option String) : SandboxState × String :=
  match client.complete (subMessages systemPrompt prompt) with
  | .ok (content, usage) =>
    ({ st with llmCalls := st.llmCalls ++ [⟨prompt, content, model, usage, 0⟩] }, content)
  | .error e => (st, "Error: LLM query failed - " ++ e)

/-- One observable effect of an LLM-authored program on the sandbox, one
constructor per injected binding of `createContext`
(src/sandbox.ts lines 94-178):
`printOut` = `print`/`console.log`/`console.info` (the joined line),
`printErr` = `console.error`/`console.warn`,
`query` = an awaited `llm_query(prompt, model?)`,
`finalCall` = `FINAL(answer)` (value already stringified),
`finalVarCall` = `FINAL_VAR(varName)`,
`assign` = a top-level variable binding left in the V8 context, to be
captured by `syncLocals` after the run. -/
inductive SandAct where
  | printOut (line : String)
  | printErr (line : String)
  | query (prompt : String) (model : Option String)
  | finalCall (answer : String)
  | finalVarCall (varName : String)
  | assign (name : String) (value : String)
deriving Repr, DecidableEq

/-- Effect of one action during a run: the state transition of the
corresponding binding.  Top-level assignments accumulate separately and reach
`locals` only after the program completes (`syncLocals`), which is why
`FINAL_VAR` inside the same run still sees the previous executions' locals. -/
def stepAct (client : LLMClient) (systemPrompt : Option String)
    (acc : SandboxState × List (String × String)) (a : SandAct) :
    SandboxState × List (String × String) :=
  match a with
  | .printOut line => ({ acc.1 with stdout := acc.1.stdout ++ [line] }, acc.2)
  | .printErr line => ({ acc.1 with stderr := acc.1.stderr ++ [line] }, acc.2)
  | .query p m => ((llmQuery client systemPrompt acc.1 p m).1, acc.2)
  | .finalCall ans => (applyFINAL acc.1 ans, acc.2)
  | .finalVarCall n => (applyFINALVAR acc.1 n, acc.2)
  | .assign n v => (acc.1, acc.2 ++ [(n, v)])

/-- The skip set of `Sandbox.syncLocals` (src/sandbox.ts lines 328-338). -/
def syncSkipKeys : List String :=
  ["console", "print", "context", "llm_query", "llm_query_batched",
   "FINAL", "FINAL_VAR", "JSON", "Math", "Date", "Array", "Object",
   "String", "Number", "Boolean", "Map", "Set", "WeakMap", "WeakSet",
   "Promise", "RegExp", "Error", "TypeError", "RangeError", "SyntaxError",
   "URIError", "EvalError", "ReferenceError", "parseInt", "parseFloat",
   "isNaN", "isFinite", "encodeURI", "decodeURI", "encodeURIComponent",
   "decodeURIComponent", "Infinity", "NaN", "undefined", "setTimeout",
   "setInterval", "clearTimeout", "clearInterval", "setImmediate",
   "clearImmediate", "queueMicrotask", "atob", "btoa", "__locals__"]

/-- JS object property write `this.locals[key] = v`: update in place when the
key exists (JS string keys keep insertion order), append otherwise. -/
def setLocal (locals : List (String × String)) (name v : String) : List (String × String) :=
  if locals.any (fun p => p.1 == name) then
    locals.map (fun p => if p.1 == name then (p.1, v) else p)
  else locals ++ [(name, v)]

/-- `Sandbox.syncLocals` (src/sandbox.ts lines 327-345): copy every top-level
binding of the finished run into the persisted `locals`, skipping names
starting with two underscores and the injected/builtin names. -/
def syncLocals (locals : List (String × String)) (assigns : List (String × String)) :
    List (String × String) :=
  assigns.foldl
    (fun acc p =>
      if p.1.startsWith "__" || syncSkipKeys.contains p.1 then acc
      else setLocal acc p.1 p.2)
    locals

/-- SandboxResult (src/sandbox.ts lines 16-23).  `executionTimeMs` is wall
clock and not carried.  `error` is `none` here: the wrapped program catches
its own faults (lines 238-279), so the action model covers the fault-free
return path; the timeout path is modelled separately (see C9). -/
structure SandboxResult where
  stdout : String
  stderr : String
  locals : List (String × String)
  llmCalls : List LLMCallRecord
  error : Option String
deriving Repr, DecidableEq

/-- `Sandbox.execute` (src/sandbox.ts lines 227-322): reset the per-run state
via `createContext`, run the program, merge the captured top-level bindings
into the persisted `locals` (`syncLocals`), and report the captured output,
locals, and sub-call log of THIS run. -/
def Sandbox.execute (client : LLMClient) (systemPrompt : Option String)
    (st : SandboxState) (prog : List SandAct) : SandboxState × SandboxResult :=
  let st0 := createContextReset st
  let run := prog.foldl (stepAct client systemPrompt) (st0, [])
  let newLocals := syncLocals run.1.locals run.2
  let st1 := { run.1 with locals := newLocals }
  (st1,
   { stdout := String.intercalate "\n" st1.stdout,
     stderr := String.intercalate "\n" st1.stderr,
     locals := newLocals,
     llmCalls := st1.llmCalls,
     error := none })

/-- `Sandbox.getFinalAnswer` (src/sandbox.ts lines 350-352). -/
def Sandbox.getFinalAnswer (st : SandboxState) : Option String := st.finalAnswer

/-- `Sandbox.getTotalUsage` (src/sandbox.ts lines 378-387): component-wise
sum over the CURRENT sub-call log. -/
def getTotalUsage (st : SandboxState) : TokenUsage :=
  st.llmCalls.foldl (fun acc call => addUsage acc call.usage) TokenUsage.zero

/-- A client that always succeeds, for concrete runs. -/
def okClient : LLMClient := ⟨fun _ => .ok ("sub-response", ⟨3, 2, 5⟩)⟩

/-- A client whose every call raises, for concrete runs. -/
def errClient : LLMClient := ⟨fun _ => .error "boom"⟩

/-- C1: the claim says the FinalAnswer state persists across `execute` calls
on one Sandbox instance.  It does not: `createContext` (called at the start
of every `execute`) resets `finalAnswer` to `null`, so after a later
`execute` whose program never invokes a final-answer binding,
`getFinalAnswer()` is `null`, not the earlier answer.  This contradicts the
repository's own test `persists final answer across executions`
(src/sandbox.test.ts lines 152-169) and the spec, so the code is the slip:
the first execution sets the answer to `42`, the second (an empty program)
erases it. -/
theorem C1_finalAnswer_reset_on_next_execute :
    Sandbox.getFinalAnswer
      (Sandbox.execute okClient none SandboxState.initial [SandAct.finalCall "42"]).1
      = some "42" ∧
    Sandbox.getFinalAnswer
      (Sandbox.execute okClient none
        (Sandbox.execute okClient none SandboxState.initial [SandAct.finalCall "42"]).1 []).1
      = none := by
  exact ⟨rfl, rfl⟩

/-- C5 counterexample: the claim says the final answer is set at most once
(first set wins, later sets ignored).  On the code, `FINAL` overwrites
unconditionally: a program that calls `FINAL("A")` then `FINAL("B")` leaves
`getFinalAnswer()` at `"B"`, not `"A"`. -/
theorem C5_counterexample_second_set_wins :
    Sandbox.getFinalAnswer
      (Sandbox.execute okClient none SandboxState.initial
        [SandAct.finalCall "A", SandAct.finalCall "B"]).1 = some "B" ∧
    ¬ Sandbox.getFinalAnswer
      (Sandbox.execute okClient none SandboxState.initial
        [SandAct.finalCall "A", SandAct.finalCall "B"]).1 = some "A" := by
  exact ⟨rfl, by decide⟩

/-- C5 amended: every invocation of a final-answer binding overwrites the
stored answer - last write wins.  Whatever the program did before, a final
`FINAL(a)` leaves `getFinalAnswer()` at `a`. -/
theorem C5_last_final_wins (client : LLMClient) (systemPrompt : Option String)
    (st : SandboxState) (prog : List SandAct) (a : String) :
    Sandbox.getFinalAnswer
      (Sandbox.execute client systemPrompt st (prog ++ [SandAct.finalCall a])).1 = some a := by
  simp [Sandbox.execute, Sandbox.getFinalAnswer, List.foldl_append, stepAct, applyFINAL]

/-- C6 counterexample: the claim says every `llm_query` invocation appends
exactly one SubLLMCallRecord, including when the underlying call raises.  On
the code the catch block returns the error string without appending: a
failing call leaves the sub-call log untouched (length 0, not 1, starting
from a fresh sandbox). -/
theorem C6_counterexample_no_record_on_error :
    (llmQuery errClient none SandboxState.initial "p" none).2
      = "Error: LLM query failed - boom" ∧
    (llmQuery errClient none SandboxState.initial "p" none).1.llmCalls.length = 0 := by
  exact ⟨rfl, rfl⟩

/-- C6 amended: `llm_query` never raises into the program; on success it
returns the assistant text and appends exactly one record (with the effective
prompt, response, model override and reported usage); on a client error it
returns the descriptive error string and appends NO record, leaving the
state unchanged. -/
theorem C6_llmQuery_total_behaviour (client : LLMClient) (systemPrompt : Option String)
    (st : SandboxState) (prompt : String) (model : Option String) :
    (∃ content usage,
      client.complete (subMessages systemPrompt prompt) = .ok (content, usage) ∧
      (llmQuery client systemPrompt st prompt model).2 = content ∧
      (llmQuery client systemPrompt st prompt model).1 =
        { st with llmCalls := st.llmCalls ++ [⟨prompt, content, model, usage, 0⟩] }) ∨
    (∃ e,
      client.complete (subMessages systemPrompt prompt) = .error e ∧
      (llmQuery client systemPrompt st prompt model).2 = "Error: LLM query failed - " ++ e ∧
      (llmQuery client systemPrompt st prompt model).1 = st) := by
  unfold llmQuery
  cases h : client.complete (subMessages systemPrompt prompt) with
  | ok pair =>
    refine Or.inl ⟨pair.1, pair.2, ?_, ?_, ?_⟩ <;> simp [h]
  | error e =>
    refine Or.inr ⟨e, ?_, ?_, ?_⟩ <;> simp [h]

/-! ## Context values and prompt building (src/rlm.ts lines 115-137,
src/prompts.ts) -/

/-- A structured caller-supplied context value (`options.context`), as the
JSON-like values the driver distinguishes (rlm.ts lines 122-124).  Numeric
literals are carried as integers. -/
inductive Json where
  | str (s : String)
  | num (n : Int)
  | bool (b : Bool)
  | null
  | arr (elems : List Json)
  | obj (fields : List (String × Json))
deriving Repr

/-- Hex digit for JSON string escapes (lowercase). -/
def hexDigit (n : Nat) : Char :=
  if n < 10 then Char.ofNat (48 + n) else Char.ofNat (87 + n)

/-- JSON.stringify escaping of one character. -/
def escapeJsonChar (c : Char) : List Char :=
  if c.toNat = 34 then ['\\', '"']
  else if c.toNat = 92 then ['\\', '\\']
  else if c.toNat = 8 then ['\\', 'b']
  else if c.toNat = 9 then ['\\', 't']
  else if c.toNat = 10 then ['\\', 'n']
  else if c.toNat = 12 then ['\\', 'f']
  else if c.toNat = 13 then ['\\', 'r']
  else if c.toNat < 0x20 then
    ['\\', 'u', '0', '0', hexDigit (c.toNat / 16), hexDigit (c.toNat % 16)]
  else [c]

/-- JSON.stringify of a string: quoted and escaped. -/
def quoteJson (s : String) : String :=
  String.mk ((Char.ofNat 34 :: (s.data.map escapeJsonChar).flatten) ++ [Char.ofNat 34])

mutual

/-- `JSON.stringify` on the context model (compact form, as JS renders with
no spacing argument). -/
def Json.stringify : Json → String
  | .str s => quoteJson s
  | .num n => toString n
  | .bool b => if b then "true" else "false"
  | .null => "null"
  | .arr elems => "[" ++ String.intercalate "," (stringifyList elems) ++ "]"
  | .obj fields => "\x7b" ++ String.intercalate "," (stringifyFields fields) ++ "\x7d"

/-- Renderings of the elements of a JSON array. -/
def stringifyList : List Json → List String
  | [] => []
  | j :: rest => Json.stringify j :: stringifyList rest

/-- Renderings of the fields of a JSON object. -/
def stringifyFields : List (String × Json) → List String
  | [] => []
  | (k, v) :: rest => (quoteJson k ++ ":" ++ Json.stringify v) :: stringifyFields rest

end

/-- rlm.ts line 122: `typeof context === "string" ? context :
JSON.stringify(context)` - the rendered text of the context. -/
def contextStrOf : Json → String
  | .str s => s
  | j => Json.stringify j

/-- rlm.ts lines 123-124: `typeof context === "string" ? "string" :
Array.isArray(context) ? "array" : "object"` (numbers, booleans and null
also land on "object" here, since only the string and array tests exist). -/
def contextTypeOf : Json → String
  | .str _ => "string"
  | .arr _ => "array"
  | _ => "object"

/-- prompts.ts `buildSystemPrompt` (lines 302-329): the system message and
the assistant context-metadata message.  Only the chunk lengths, the total
character count, the type tag and the schema description reach the text.
The `if (schemaDescription)` truthiness test makes the empty string behave
like `null`. -/
def buildSystemPrompt (systemPrompt : String) (contextLengths : List Nat)
    (contextTotalLength : Nat) (contextType : String)
    (schemaDescription : Option String) : List ChatMessage :=
  [⟨"system", systemPrompt⟩,
   ⟨"assistant",
     (("Your context is a " ++ contextType ++ " with " ++ toString contextTotalLength ++
       " total characters, and is broken up into chunks of char lengths: " ++
       (if contextLengths.length > 100 then
          "[" ++ String.intercalate ", " ((contextLengths.take 100).map toString) ++
            "... + " ++ toString (contextLengths.length - 100) ++ " more]"
        else
          "[" ++ String.intercalate ", " (contextLengths.map toString) ++ "]") ++ ".") ++
      (match schemaDescription with
       | some sd =>
         if sd = "" then ""
         else
           "\n\nThe `context` variable has the following TypeScript type:\n```typescript\ntype Context = " ++
           sd ++
           "\n```\n\nYou can access the properties of `context` directly according to this type structure."
       | none => ""))⟩]

/-- prompts.ts `USER_PROMPT_WITH_ROOT` (lines 83-85), with the
`{rootPrompt}` placeholder. -/
def USER_PROMPT_WITH_ROOT : String :=
  "Think step-by-step on what to do using the REPL environment (which contains the context) to answer the original prompt: \"{rootPrompt}\".\n\nContinue using the REPL environment, which has the `context` variable, and querying sub-LLMs by writing to ```repl``` tags, and determine your answer. Your next action:"

/-- JS `String.prototype.replace` with a string pattern: replace the first
occurrence.  `$`-substitution patterns in the replacement text are not
expanded (no statement below depends on them). -/
def replaceFirst (s pat repl : String) : String :=
  match firstIdx pat.data s.data with
  | none => s
  | some i => String.mk (s.data.take i ++ repl.data ++ s.data.drop (i + pat.data.length))

/-- The iteration-0 safeguard prefix of prompts.ts line 341. -/
def safeguardText : String :=
  "You have not interacted with the REPL environment or seen your prompt / context yet. Your next action should be to look through and figure out how to answer the prompt, so don" ++
  apos ++ "t just provide a final answer yet.\n\n"

/-- prompts.ts `buildUserPrompt` (lines 334-349): the per-iteration user
turn; iteration 0 gets the safeguard prefix, later iterations the
history-reference prefix; both embed the caller's prompt into the template. -/
def buildUserPrompt (prompt : String) (iteration : Nat) : ChatMessage :=
  if iteration = 0 then
    ⟨"user", safeguardText ++ replaceFirst USER_PROMPT_WITH_ROOT "{rootPrompt}" prompt⟩
  else
    ⟨"user", "The history before is your previous interactions with the REPL environment. " ++
      replaceFirst USER_PROMPT_WITH_ROOT "{rootPrompt}" prompt⟩

/-- The message list of the FIRST root LLM call of a completion (rlm.ts
lines 131-151 at i = 0): the initial history built by `buildSystemPrompt`
from `[contextStr.length]`, `contextStr.length` and the type tag, plus the
iteration-0 user turn. -/
def firstRootCallMessages (systemPrompt prompt : String) (ctx : Json)
    (schemaDescription : Option String) : List ChatMessage :=
  buildSystemPrompt systemPrompt [(contextStrOf ctx).length] (contextStrOf ctx).length
    (contextTypeOf ctx) schemaDescription ++ [buildUserPrompt prompt 0]

/-- C4: the raw context content never reaches the root prompt - the message
history assembled for the first root LLM call depends on the context value
only through the length of its rendered text and its type tag: two context
values agreeing on both produce identical histories. -/
theorem C4_root_prompt_context_independent (systemPrompt prompt : String)
    (schemaDescription : Option String) (c1 c2 : Json)
    (hlen : (contextStrOf c1).length = (contextStrOf c2).length)
    (htag : contextTypeOf c1 = contextTypeOf c2) :
    firstRootCallMessages systemPrompt prompt c1 schemaDescription =
      firstRootCallMessages systemPrompt prompt c2 schemaDescription := by
  unfold firstRootCallMessages
  rw [hlen, htag]

/-- C4 witness: two different string contexts of equal length yield the same
first-root-call history. -/
theorem C4_witness :
    firstRootCallMessages "sys" "q" (Json.str "ab") none =
      firstRootCallMessages "sys" "q" (Json.str "cd") none :=
  C4_root_prompt_context_independent "sys" "q" none (Json.str "ab") (Json.str "cd") rfl rfl

/-! ## Execution-report formatting (src/parsing.ts lines 54-107) -/

/-- parsing.ts `formatExecutionResult` (lines 54-78): stdout, stderr, and a
`REPL variables: [...]` line listing locals whose names do not start with an
underscore, joined by blank lines; `No output` when all parts are absent
(the `if (result.stdout)` tests are JS truthiness, so empty strings drop
out). -/
def formatExecutionResult (result : SandboxResult) : String :=
  if ((if result.stdout ≠ "" then [result.stdout] else []) ++
      (if result.stderr ≠ "" then [result.stderr] else []) ++
      (if ((result.locals.map Prod.fst).filter (fun k => ¬ k.startsWith "_")).length > 0 then
        ["REPL variables: [" ++
          String.intercalate ", "
            ((result.locals.map Prod.fst).filter (fun k => ¬ k.startsWith "_")) ++ "]"]
       else [])).length > 0 then
    String.intercalate "\n\n"
      ((if result.stdout ≠ "" then [result.stdout] else []) ++
       (if result.stderr ≠ "" then [result.stderr] else []) ++
       (if ((result.locals.map Prod.fst).filter (fun k => ¬ k.startsWith "_")).length > 0 then
         ["REPL variables: [" ++
           String.intercalate ", "
             ((result.locals.map Prod.fst).filter (fun k => ¬ k.startsWith "_")) ++ "]"]
        else []))
  else "No output"

/-- parsing.ts `formatIteration` (lines 83-107): the assistant message with
the verbatim response, then one user message per executed block holding the
code (rewrapped in a `javascript` fence) and the formatted report, truncated
at `maxCharLength` characters with an elision tail. -/
def formatIteration (response : String) (codeBlocks : List (String × SandboxResult))
    (maxCharLength : Nat) : List ChatMessage :=
  ChatMessage.mk "assistant" response ::
  codeBlocks.map (fun block =>
    ChatMessage.mk "user"
      ("Code executed:\n```javascript\n" ++ block.1 ++ "\n```\n\nREPL output:\n" ++
       (if (formatExecutionResult block.2).length > maxCharLength then
          (formatExecutionResult block.2).take maxCharLength ++ "... + [" ++
            toString ((formatExecutionResult block.2).length - maxCharLength) ++
            " chars truncated]"
        else formatExecutionResult block.2)))

/-! ## The driver (src/rlm.ts `RLLM.completion`, lines 108-303)

The LLM-authored program text is interpreted by the external V8 runtime;
the driver model therefore takes an execution oracle `behave` assigning to
each code-block string the sandbox actions its run performs.  The trace
array, the event emissions and `executionTimeMs` (wall clock) are not
modelled here; `emitEvent` below (claim C8) models the event path in
isolation.  The driver's list of produced ExecutionReports, which the code
keeps in its per-iteration `codeBlocks` arrays, is returned alongside the
result so the accounting claims can be stated. -/

/-- The parameters fixed for one completion: the shared client (used for
root and sub calls alike, rlm.ts line 118), the execution oracle for the
external interpreter, the caller's prompt, the system prompt
(`config.systemPrompt ?? RLM_SYSTEM_PROMPT`), and `maxIterations`. -/
structure DriverEnv where
  client : LLMClient
  behave : String → List SandAct
  prompt : String
  systemPrompt : String
  maxIterations : Nat

/-- The runtime shape of `RLMResult.answer`: `rawString` is what the
final-answer path stores (rlm.ts lines 230 and 276 put
`sandbox.getFinalAnswer()`, a string, directly into `answer`), `structured`
is the fallback object `\x7b message, data: undefined \x7d` of line 292.
types.ts (lines 84-92) declares `answer` as an object with a string
`message`. -/
inductive AnswerVal where
  | rawString (s : String)
  | structured (message : String) (data : Option String)
deriving Repr, DecidableEq

/-- RLMUsage (src/types.ts lines 72-78) without the wall-clock
`executionTimeMs`. -/
structure RLMUsage where
  totalCalls : Nat
  rootCalls : Nat
  subCalls : Nat
  tokenUsage : TokenUsage
deriving Repr, DecidableEq

/-- RLMResult (src/types.ts lines 84-92) without the trace array. -/
structure RLMResult where
  answer : AnswerVal
  usage : RLMUsage
  iterations : Nat
deriving Repr, DecidableEq

/-- The per-iteration block loop (rlm.ts lines 189-242): execute each block
in order, collect `(code, report)` pairs, and stop early - skipping the
remaining blocks - as soon as `sandbox.getFinalAnswer()` is set after an
execution.  Returns the sandbox state, the executed pairs, and the final
answer if one was set. -/
def runBlocks (env : DriverEnv) :
    SandboxState → List String → SandboxState × List (String × SandboxResult) × Option String
  | st, [] => (st, [], none)
  | st, code :: rest =>
    let r := Sandbox.execute env.client (some env.systemPrompt) st (env.behave code)
    match Sandbox.getFinalAnswer r.1 with
    | some fa => (r.1, [(code, r.2)], some fa)
    | none =>
      let next := runBlocks env r.1 rest
      (next.1, (code, r.2) :: next.2.1, next.2.2)

/-- The `for (let i = 0; ...)` loop of rlm.ts lines 146-249 as recursion on
the remaining iteration count: build the user turn, call the root LLM
(a thrown transport error propagates as `.error`), accumulate usage, parse
and execute the blocks, return the early result when a block set the final
answer (usage snapshot: `rootCalls = iterations = i + 1`, `subCalls` =
length of the sandbox's CURRENT `llmCalls` log, token usage = root
accumulator + `getTotalUsage()`), else append the formatted iteration to the
history and continue. -/
def mainLoop (env : DriverEnv) :
    Nat → Nat → List ChatMessage → SandboxState → TokenUsage → List SandboxResult →
    Except String ((RLMResult × List SandboxResult) ⊕
      (List ChatMessage × SandboxState × TokenUsage × List SandboxResult))
  | 0, _, history, st, totalUsage, reports => .ok (.inr (history, st, totalUsage, reports))
  | remaining + 1, i, history, st, totalUsage, reports =>
    match env.client.complete (history ++ [buildUserPrompt env.prompt i]) with
    | .error e => .error e
    | .ok result =>
      let r := runBlocks env st (findCodeBlocks result.1)
      match r.2.2 with
      | some fa =>
        .ok (.inl
          ({ answer := .rawString fa,
             usage :=
               { totalCalls := (i + 1) + r.1.llmCalls.length,
                 rootCalls := i + 1,
                 subCalls := r.1.llmCalls.length,
                 tokenUsage := addUsage (addUsage totalUsage result.2) (getTotalUsage r.1) },
             iterations := i + 1 },
           reports ++ r.2.1.map Prod.snd))
      | none =>
        mainLoop env remaining (i + 1)
          (history ++ formatIteration result.1 r.2.1 20000)
          r.1 (addUsage totalUsage result.2) (reports ++ r.2.1.map Prod.snd)

/-- The final-request user message of rlm.ts lines 254-257. -/
def finalRequestContent : String :=
  "You" ++ apos ++
  "ve reached the maximum iterations. Please provide your best final answer now using giveFinalAnswer(\x7b message: " ++
  apos ++ "your answer" ++ apos ++ ", data: optionalData \x7d)."

/-- One step of the post-loop block execution (rlm.ts lines 269-271):
execute the block, keep the report; no early-stop final-answer check. -/
def execFoldStep (env : DriverEnv) (acc : SandboxState × List SandboxResult)
    (code : String) : SandboxState × List SandboxResult :=
  ((Sandbox.execute env.client (some env.systemPrompt) acc.1 (env.behave code)).1,
   acc.2 ++ [(Sandbox.execute env.client (some env.systemPrompt) acc.1 (env.behave code)).2])

/-- The usage record of the two post-loop returns (rlm.ts lines 278-284 and
293-299, identical in both branches). -/
def postLoopUsage (env : DriverEnv) (totalUsage usage : TokenUsage)
    (st : SandboxState) : RLMUsage :=
  { totalCalls := (env.maxIterations + 1) + st.llmCalls.length,
    rootCalls := env.maxIterations + 1,
    subCalls := st.llmCalls.length,
    tokenUsage := addUsage (addUsage totalUsage usage) (getTotalUsage st) }

/-- The initial message history of a completion (rlm.ts lines 122-137):
system prompt plus context metadata from `[contextStr.length]`,
`contextStr.length` and the type tag. -/
def initialHistory (env : DriverEnv) (ctx : Json) (schemaDescription : Option String) :
    List ChatMessage :=
  buildSystemPrompt env.systemPrompt [(contextStrOf ctx).length]
    (contextStrOf ctx).length (contextTypeOf ctx) schemaDescription

/-- `RLLM.completion` (rlm.ts lines 108-303).  After the loop the
`iterations` variable equals `maxIterations` (also when `maxIterations = 0`,
where the loop body never ran and it stays 0), so the post-loop paths report
`maxIterations + 1` iterations and root calls.  The post-loop final response
has its blocks executed WITHOUT the early-stop final-answer check (lines
269-271), then the final answer is read once; when unset, the raw response
text is wrapped as the structured fallback object (line 292). -/
def completion (env : DriverEnv) (ctx : Json) (schemaDescription : Option String) :
    Except String (RLMResult × List SandboxResult) :=
  match mainLoop env env.maxIterations 0 (initialHistory env ctx schemaDescription)
      SandboxState.initial TokenUsage.zero [] with
  | .error e => .error e
  | .ok (.inl res) => .ok res
  | .ok (.inr tail) =>
    match env.client.complete (tail.1 ++ [ChatMessage.mk "user" finalRequestContent]) with
    | .error e => .error e
    | .ok result =>
      let fin := (findCodeBlocks result.1).foldl (execFoldStep env) (tail.2.1, tail.2.2.2)
      match Sandbox.getFinalAnswer fin.1 with
      | some fa =>
        .ok ({ answer := .rawString fa,
               usage := postLoopUsage env tail.2.2.1 result.2 fin.1,
               iterations := env.maxIterations + 1 }, fin.2)
      | none =>
        .ok ({ answer := .structured result.1 none,
               usage := postLoopUsage env tail.2.2.1 result.2 fin.1,
               iterations := env.maxIterations + 1 }, fin.2)

/-- When the main loop returns early (a block of iteration `i` set the final
answer), the reported iteration count lies between `i + 1` and
`i + remaining`. -/
theorem mainLoop_inl_iterations (env : DriverEnv) :
    ∀ (remaining i : Nat) (history : List ChatMessage) (st : SandboxState)
      (tu : TokenUsage) (reports : List SandboxResult)
      (res : RLMResult) (reps : List SandboxResult),
      mainLoop env remaining i history st tu reports = .ok (.inl (res, reps)) →
      i + 1 ≤ res.iterations ∧ res.iterations ≤ i + remaining := by
  intro remaining
  induction remaining with
  | zero =>
    intro i history st tu reports res reps h
    simp [mainLoop] at h
  | succ n ih =>
    intro i history st tu reports res reps h
    simp only [mainLoop] at h
    cases hc : env.client.complete (history ++ [buildUserPrompt env.prompt i]) with
    | error e => rw [hc] at h; simp at h
    | ok result =>
      rw [hc] at h
      dsimp only at h
      cases hfa : (runBlocks env st (findCodeBlocks result.1)).2.2 with
      | some fa =>
        rw [hfa] at h
        simp only [Except.ok.injEq, Sum.inl.injEq, Prod.mk.injEq] at h
        obtain ⟨h1, h2⟩ := h
        subst h1
        simp
      | none =>
        rw [hfa] at h
        have hb := ih (i + 1) _ _ _ _ res reps h
        omega

/-- The main loop ran out of iterations without any block setting a final
answer, so the post-loop final-request path of rlm.ts lines 251-302 was
taken. -/
def loopExhausted (env : DriverEnv) (ctx : Json) (sd : Option String) : Prop :=
  ∃ tail, mainLoop env env.maxIterations 0 (initialHistory env ctx sd)
    SandboxState.initial TokenUsage.zero [] = .ok (.inr tail)

/-- C7: a completion that returns a result (no root transport error escaped)
reports between `1` and `maxIterations + 1` iterations, and the value
`maxIterations + 1` occurs exactly when the main loop exhausted its
iterations without a final answer and the extra final-request root call was
made. -/
theorem C7_iterations_bounds (env : DriverEnv) (ctx : Json) (sd : Option String)
    (res : RLMResult) (reports : List SandboxResult)
    (h : completion env ctx sd = .ok (res, reports)) :
    1 ≤ res.iterations ∧ res.iterations ≤ env.maxIterations + 1 ∧
      (res.iterations = env.maxIterations + 1 ↔ loopExhausted env ctx sd) := by
  unfold completion at h
  cases hm : mainLoop env env.maxIterations 0 (initialHistory env ctx sd)
      SandboxState.initial TokenUsage.zero [] with
  | error e => rw [hm] at h; simp at h
  | ok v =>
    rw [hm] at h
    cases v with
    | inl p =>
      obtain ⟨res0, reps0⟩ := p
      simp only [Except.ok.injEq, Prod.mk.injEq] at h
      obtain ⟨h1, h2⟩ := h
      subst h1
      have hb := mainLoop_inl_iterations env env.maxIterations 0 _ _ _ _ res0 reps0 hm
      refine ⟨by omega, by omega, ?_, ?_⟩
      · intro hiter; omega
      · rintro ⟨tail, htail⟩
        rw [hm] at htail
        simp at htail
    | inr tail =>
      dsimp only at h
      cases hc : env.client.complete (tail.1 ++ [ChatMessage.mk "user" finalRequestContent]) with
      | error e => rw [hc] at h; simp at h
      | ok result =>
        rw [hc] at h
        dsimp only at h
        cases hfa : Sandbox.getFinalAnswer
            ((findCodeBlocks result.1).foldl (execFoldStep env) (tail.2.1, tail.2.2.2)).1 with
        | some fa =>
          rw [hfa] at h
          simp only [Except.ok.injEq, Prod.mk.injEq] at h
          obtain ⟨h1, h2⟩ := h
          subst h1
          exact ⟨Nat.succ_le_succ (Nat.zero_le _), le_refl _, fun _ => ⟨tail, hm⟩, fun _ => rfl⟩
        | none =>
          rw [hfa] at h
          simp only [Except.ok.injEq, Prod.mk.injEq] at h
          obtain ⟨h1, h2⟩ := h
          subst h1
          exact ⟨Nat.succ_le_succ (Nat.zero_le _), le_refl _, fun _ => ⟨tail, hm⟩, fun _ => rfl⟩

/-- A root client that always answers with plain text, for the C7 witness. -/
def clientC7 : LLMClient := ⟨fun _ => .ok ("no blocks here", ⟨1, 1, 2⟩)⟩

/-- A driver whose iteration budget is 0: the loop exhausts immediately. -/
def envC7 : DriverEnv := ⟨clientC7, fun _ => [], "q", "sys", 0⟩

/-- The result of `completion envC7 (Json.str "") none`. -/
def resC7 : RLMResult :=
  ⟨.structured "no blocks here" none, ⟨1, 1, 0, ⟨1, 1, 2⟩⟩, 1⟩

/-- C7 witness: the bounds evaluated on a concrete completion with
`maxIterations = 0`. -/
theorem C7_witness :
    1 ≤ resC7.iterations ∧ resC7.iterations ≤ envC7.maxIterations + 1 ∧
      (resC7.iterations = envC7.maxIterations + 1 ↔ loopExhausted envC7 (Json.str "") none) :=
  C7_iterations_bounds envC7 (Json.str "") none resC7 [] (by rfl)

/-- The report returned by one `execute` carries exactly the sandbox's
sub-call log as of the end of that `execute` (sandbox.ts lines 303-309). -/
theorem execute_report_llmCalls (client : LLMClient) (systemPrompt : Option String)
    (st : SandboxState) (prog : List SandAct) :
    (Sandbox.execute client systemPrompt st prog).2.llmCalls =
      (Sandbox.execute client systemPrompt st prog).1.llmCalls := rfl

/-- The sub-call log of the most recently produced execution report
(`[]` when no report has been produced). -/
def lastReportCalls (reports : List SandboxResult) : List LLMCallRecord :=
  (reports.getLast?.map SandboxResult.llmCalls).getD []

theorem lastReportCalls_concat (reports : List SandboxResult) (r : SandboxResult) :
    lastReportCalls (reports ++ [r]) = r.llmCalls := by
  simp [lastReportCalls, List.getLast?_concat]

/-- Through a block run, the sandbox's sub-call log always equals the log of
the last produced report: `createContext` clears it on every `execute`. -/
theorem runBlocks_calls_inv (env : DriverEnv) :
    ∀ (blocks : List String) (st : SandboxState) (reports : List SandboxResult),
      st.llmCalls = lastReportCalls reports →
      (runBlocks env st blocks).1.llmCalls =
        lastReportCalls (reports ++ (runBlocks env st blocks).2.1.map Prod.snd) := by
  intro blocks
  induction blocks with
  | nil =>
    intro st reports h
    simpa [runBlocks] using h
  | cons code rest ih =>
    intro st reports h
    simp only [runBlocks]
    cases hfa : Sandbox.getFinalAnswer
        (Sandbox.execute env.client (some env.systemPrompt) st (env.behave code)).1 with
    | some fa =>
      dsimp only
      rw [List.map_cons, List.map_nil, lastReportCalls_concat]
      exact (execute_report_llmCalls _ _ _ _).symm
    | none =>
      dsimp only
      have h1 : (Sandbox.execute env.client (some env.systemPrompt) st (env.behave code)).1.llmCalls
          = lastReportCalls (reports ++
              [(Sandbox.execute env.client (some env.systemPrompt) st (env.behave code)).2]) := by
        rw [lastReportCalls_concat]
        exact (execute_report_llmCalls _ _ _ _).symm
      have h2 := ih (Sandbox.execute env.client (some env.systemPrompt) st (env.behave code)).1
        (reports ++ [(Sandbox.execute env.client (some env.systemPrompt) st (env.behave code)).2]) h1
      simpa [List.append_assoc] using h2

/-- Through the main loop, the sandbox's sub-call log equals the log of the
last produced report - at the early return, `subCalls` is therefore the
record count of the LAST report; at loop exhaustion the invariant carries
over to the tail state. -/
theorem mainLoop_calls_inv (env : DriverEnv) :
    ∀ (remaining i : Nat) (history : List ChatMessage) (st : SandboxState)
      (tu : TokenUsage) (reports : List SandboxResult),
      st.llmCalls = lastReportCalls reports →
      (∀ res reps, mainLoop env remaining i history st tu reports = .ok (.inl (res, reps)) →
        res.usage.subCalls = (lastReportCalls reps).length) ∧
      (∀ tail, mainLoop env remaining i history st tu reports = .ok (.inr tail) →
        tail.2.1.llmCalls = lastReportCalls tail.2.2.2) := by
  intro remaining
  induction remaining with
  | zero =>
    intro i history st tu reports h
    constructor
    · intro res reps hh
      simp [mainLoop] at hh
    · intro tail hh
      simp only [mainLoop, Except.ok.injEq, Sum.inr.injEq] at hh
      subst hh
      simpa using h
  | succ n ih =>
    intro i history st tu reports h
    constructor
    · intro res reps hh
      simp only [mainLoop] at hh
      cases hc : env.client.complete (history ++ [buildUserPrompt env.prompt i]) with
      | error e => rw [hc] at hh; simp at hh
      | ok result =>
        rw [hc] at hh
        dsimp only at hh
        have hrb := runBlocks_calls_inv env (findCodeBlocks result.1) st reports h
        cases hfa : (runBlocks env st (findCodeBlocks result.1)).2.2 with
        | some fa =>
          rw [hfa] at hh
          simp only [Except.ok.injEq, Sum.inl.injEq, Prod.mk.injEq] at hh
          obtain ⟨h1, h2⟩ := hh
          subst h1
          subst h2
          simpa using congrArg List.length hrb
        | none =>
          rw [hfa] at hh
          exact (ih (i + 1) _ _ _ _ hrb).1 res reps hh
    · intro tail hh
      simp only [mainLoop] at hh
      cases hc : env.client.complete (history ++ [buildUserPrompt env.prompt i]) with
      | error e => rw [hc] at hh; simp at hh
      | ok result =>
        rw [hc] at hh
        dsimp only at hh
        have hrb := runBlocks_calls_inv env (findCodeBlocks result.1) st reports h
        cases hfa : (runBlocks env st (findCodeBlocks result.1)).2.2 with
        | some fa =>
          rw [hfa] at hh
          simp at hh
        | none =>
          rw [hfa] at hh
          exact (ih (i + 1) _ _ _ _ hrb).2 tail hh

/-- Through the post-loop block executions, the sandbox's sub-call log still
equals the log of the last produced report. -/
theorem foldExec_calls_inv (env : DriverEnv) :
    ∀ (blocks : List String) (st : SandboxState) (reports : List SandboxResult),
      st.llmCalls = lastReportCalls reports →
      (blocks.foldl (execFoldStep env) (st, reports)).1.llmCalls =
        lastReportCalls (blocks.foldl (execFoldStep env) (st, reports)).2 := by
  intro blocks
  induction blocks with
  | nil =>
    intro st reports h
    simpa using h
  | cons code rest ih =>
    intro st reports h
    simp only [List.foldl_cons]
    refine ih _ _ ?_
    show (Sandbox.execute env.client (some env.systemPrompt) st (env.behave code)).1.llmCalls
      = lastReportCalls (reports ++
          [(Sandbox.execute env.client (some env.systemPrompt) st (env.behave code)).2])
    rw [lastReportCalls_concat]
    exact (execute_report_llmCalls _ _ _ _).symm

/-- C2 amended: `result.usage.subCalls` does NOT sum the SubLLMCallRecords of
all execution reports; it equals the record count of the MOST RECENT report
(0 when no block was ever executed), because `createContext` clears the
sandbox's sub-call log at the start of every `execute` and the driver reads
`sandbox.getLLMCalls().length` at return time. -/
theorem C2_subCalls_eq_last_report (env : DriverEnv) (ctx : Json) (sd : Option String)
    (res : RLMResult) (reports : List SandboxResult)
    (h : completion env ctx sd = .ok (res, reports)) :
    res.usage.subCalls = (lastReportCalls reports).length := by
  unfold completion at h
  have hinv := mainLoop_calls_inv env env.maxIterations 0 (initialHistory env ctx sd)
    SandboxState.initial TokenUsage.zero [] (by simp [SandboxState.initial, lastReportCalls])
  cases hm : mainLoop env env.maxIterations 0 (initialHistory env ctx sd)
      SandboxState.initial TokenUsage.zero [] with
  | error e => rw [hm] at h; simp at h
  | ok v =>
    rw [hm] at h
    cases v with
    | inl p =>
      dsimp only at h
      simp only [Except.ok.injEq] at h
      exact hinv.1 res reports (h ▸ hm)
    | inr tail =>
      dsimp only at h
      cases hc : env.client.complete (tail.1 ++ [ChatMessage.mk "user" finalRequestContent]) with
      | error e => rw [hc] at h; simp at h
      | ok result =>
        rw [hc] at h
        dsimp only at h
        have htail := hinv.2 tail hm
        have hfold := foldExec_calls_inv env (findCodeBlocks result.1) tail.2.1 tail.2.2.2 htail
        cases hfa : Sandbox.getFinalAnswer
            ((findCodeBlocks result.1).foldl (execFoldStep env) (tail.2.1, tail.2.2.2)).1 with
        | some fa =>
          rw [hfa] at h
          simp only [Except.ok.injEq, Prod.mk.injEq] at h
          obtain ⟨h1, h2⟩ := h
          subst h1
          subst h2
          simpa [postLoopUsage] using congrArg List.length hfold
        | none =>
          rw [hfa] at h
          simp only [Except.ok.injEq, Prod.mk.injEq] at h
          obtain ⟨h1, h2⟩ := h
          subst h1
          subst h2
          simpa [postLoopUsage] using congrArg List.length hfold

/-- The root response of the C2 scenario: two `repl` blocks. -/
def rootContentC2 : String := "```repl\nA\n```\n```repl\nB\n```"

/-- A client answering root calls (message lists of length 3) with the
two-block response and sub calls (length-2 message lists) with fixed text. -/
def clientC2 : LLMClient :=
  ⟨fun msgs =>
    if msgs.length == 2 then .ok ("sub-response", ⟨3, 2, 5⟩)
    else .ok (rootContentC2, ⟨10, 7, 17⟩)⟩

/-- Block `A` makes one sub call; block `B` makes one sub call and sets the
final answer. -/
def behaveC2 : String → List SandAct := fun code =>
  if code == "A" then [.query "p1" none]
  else if code == "B" then [.query "p2" none, .finalCall "done"]
  else []

/-- The C2 driver: one iteration suffices (block `B` ends the run). -/
def envC2 : DriverEnv := ⟨clientC2, behaveC2, "q", "sys", 1⟩

/-- C2 counterexample: in the C2 scenario two execution reports each carry
one SubLLMCallRecord (sum 2), yet the returned `usage.subCalls` is 1 - only
the most recent execution's log is counted, refuting the claimed sum over
all reports. -/
theorem C2_counterexample_subCalls_not_sum :
    (completion envC2 (Json.str "") none).map
        (fun r => (r.1.usage.subCalls, (r.2.map (fun rep => rep.llmCalls.length)).sum)) =
      .ok (1, 2) := by
  rfl

/-- The result of `completion envC2 (Json.str "") none`. -/
def resC2 : RLMResult := ⟨.rawString "done", ⟨2, 1, 1, ⟨13, 9, 22⟩⟩, 1⟩

/-- The reports of `completion envC2 (Json.str "") none`. -/
def reportsC2 : List SandboxResult :=
  [⟨"", "", [], [⟨"p1", "sub-response", none, ⟨3, 2, 5⟩, 0⟩], none⟩,
   ⟨"", "", [], [⟨"p2", "sub-response", none, ⟨3, 2, 5⟩, 0⟩], none⟩]

/-- C2 witness: the amended accounting evaluated on the concrete scenario. -/
theorem C2_witness : resC2.usage.subCalls = (lastReportCalls reportsC2).length :=
  C2_subCalls_eq_last_report envC2 (Json.str "") none resC2 reportsC2 (by rfl)

/-- A client whose root response sets the final answer through `FINAL`. -/
def clientC3 : LLMClient :=
  ⟨fun msgs =>
    if msgs.length == 2 then .ok ("sub-response", ⟨3, 2, 5⟩)
    else .ok ("```repl\nFINAL(42)\n```", ⟨10, 7, 17⟩)⟩

/-- The one block calls `FINAL(42)` (stringified to `"42"`). -/
def behaveC3 : String → List SandAct := fun code =>
  if code == "FINAL(42)" then [.finalCall "42"] else []

/-- The C3 driver. -/
def envC3 : DriverEnv := ⟨clientC3, behaveC3, "q", "sys", 1⟩

/-- C3: when a completion terminates because a block set the final answer
through the sandbox's final-answer binding, the returned `answer` is the
BARE string `sandbox.getFinalAnswer()` - not a structured
`\x7b message: string \x7d` value.  types.ts lines 84-92 declare `answer`
as an object with a string `message` field and the tests
(src/sandbox.test.ts lines 95-126) read `answer.message`, so the bare
string contradicts the code's own declarations: code bug. -/
theorem C3_answer_is_bare_string :
    (completion envC3 (Json.str "") none).map (fun r => r.1.answer) =
      .ok (AnswerVal.rawString "42") := by
  rfl

/-! ## Event emission (rlm.ts lines 142-144, claim C8) -/

/-- RLMEvent (src/types.ts lines 112-122), with the `type` field renamed
`eventType` (Lean keyword) and the optional payload strings collapsed into
one field; none of this affects the propagation behaviour under study. -/
structure RLMEvent where
  eventType : String
  timestamp : Nat
  iteration : Option Nat
  payload : Option String
deriving Repr, DecidableEq

/-- `emit` (rlm.ts lines 142-144):
`options.onEvent?.((spread of event) with timestamp: Date.now())` - the
callback is invoked directly with NO try/catch around it, so an exception it
throws propagates into the completion loop.  A callback that throws is
modelled as one returning `Except.error`. -/
def emitEvent (onEvent : Option (RLMEvent → Except String Unit)) (now : Nat)
    (eventType : String) (iteration : Option Nat) (payload : Option String) :
    Except String Unit :=
  match onEvent with
  | none => .ok ()
  | some f => f ⟨eventType, now, iteration, payload⟩

/-- C8 counterexample: the claim says exceptions thrown by the `onEvent`
callback are swallowed.  They are not: with a throwing callback, `emit`
itself evaluates to the thrown error, not to a normal return, so the
exception reaches the driver (which has no handler) and aborts the
completion. -/
theorem C8_counterexample_emit_propagates :
    emitEvent (some (fun _ => .error "callback boom")) 0 "iteration_start" (some 1) none =
      .error "callback boom" ∧
    ¬ emitEvent (some (fun _ => .error "callback boom")) 0 "iteration_start" (some 1) none =
      .ok () := by
  exact ⟨rfl, by simp [emitEvent]⟩

/-- C8 amended: an exception thrown by the `onEvent` callback propagates
unchanged out of `emit` into the driver; a throwing callback therefore
aborts the completion instead of being swallowed. -/
theorem C8_emit_propagates_callback_throw (f : RLMEvent → Except String Unit)
    (now : Nat) (eventType : String) (iteration : Option Nat) (payload : Option String)
    (e : String) (h : f ⟨eventType, now, iteration, payload⟩ = .error e) :
    emitEvent (some f) now eventType iteration payload = .error e := h

/-- C8 witness: the propagation theorem applied to a concrete throwing
callback. -/
theorem C8_witness :
    emitEvent (some (fun _ => Except.error "x")) 5 "final_answer" none none =
      .error "x" :=
  C8_emit_propagates_callback_throw (fun _ => Except.error "x") 5 "final_answer" none none "x" rfl

/-! ## Timeout handling (sandbox.ts lines 227-321, claim C9) -/

/-- Timing skeleton of one program run inside `execute`: `syncMs` is the
wall-clock time the program spends inside `script.runInContext` (the
synchronous evaluation of the wrapped async body up to its first suspension,
which returns the pending promise), `asyncMs` the time its awaited
asynchronous work takes afterwards, during the `await result` of lines
288-298. -/
structure TimedProgram where
  syncMs : Nat
  asyncMs : Nat
deriving Repr, DecidableEq

/-- The timing-relevant fields of the report `execute` returns. -/
structure TimedReport where
  executionTimeMs : Nat
  error : Option String
deriving Repr, DecidableEq

/-- The formatted timeout error of the catch block (lines 310-321) when
`runInContext` aborts the synchronous evaluation. -/
def timeoutMessage (timeout : Nat) : String :=
  "Error: Script execution timed out after " ++ toString timeout ++ "ms"

/-- Timing model of `Sandbox.execute` (sandbox.ts lines 227-321): the
`options.timeout ?? 300000` budget (line 228) is passed ONLY to
`script.runInContext` (line 285), which bounds the synchronous evaluation;
when the sync phase exceeds it, `runInContext` throws and the catch of lines
310-321 returns a normal report with `error` describing the timeout.  The
subsequent `await result` has no timing mechanism, so once `runInContext`
has returned the pending promise, the awaited asynchronous work runs to
completion whatever its duration. -/
def executeTimed (timeoutOpt : Option Nat) (p : TimedProgram) : TimedReport :=
  if timeoutOpt.getD 300000 < p.syncMs then
    { executionTimeMs := timeoutOpt.getD 300000,
      error := some (timeoutMessage (timeoutOpt.getD 300000)) }
  else
    { executionTimeMs := p.syncMs + p.asyncMs, error := none }

/-- C9 counterexample: the claim says the wall-clock bound applies to the
whole program including its awaited asynchronous work.  It does not: a
program whose synchronous phase is instant but whose awaited async work
takes 600000 ms finishes normally under the default 300000 ms budget - no
termination, no timeout error - because the budget only reaches
`runInContext`. -/
theorem C9_counterexample_async_unbounded :
    executeTimed none ⟨0, 600000⟩ = { executionTimeMs := 600000, error := none } ∧
    300000 < (executeTimed none ⟨0, 600000⟩).executionTimeMs := by
  exact ⟨rfl, by decide⟩

/-- C9 amended: the configured timeout (default 300000 ms) bounds only the
synchronous portion of the program; when that portion exceeds the budget,
the program is terminated and `execute` returns a normal report whose
`error` describes the timeout.  Awaited asynchronous work is not bounded. -/
theorem C9_sync_timeout_reported (timeoutOpt : Option Nat) (p : TimedProgram)
    (h : timeoutOpt.getD 300000 < p.syncMs) :
    (executeTimed timeoutOpt p).error =
      some (timeoutMessage (timeoutOpt.getD 300000)) := by
  simp [executeTimed, h]

/-- C9 witness: a program whose synchronous phase overruns a 10 ms budget is
reported as timed out. -/
theorem C9_witness :
    (executeTimed (some 10) ⟨11, 0⟩).error = some (timeoutMessage 10) :=
  C9_sync_timeout_reported (some 10) ⟨11, 0⟩ (by decide)

/-! ## The shape of extracted code blocks (claim C10) -/

/-- Soundness of `firstIdx`: a found index decomposes the input around the
pattern. -/
theorem firstIdx_spec (pat : List Char) :
    ∀ (s : List Char) (i : Nat), firstIdx pat s = some i →
      ∃ pre post, s = pre ++ (pat ++ post) ∧ pre.length = i := by
  intro s
  induction s with
  | nil =>
    intro i h
    simp only [firstIdx] at h
    split at h
    · rename_i hp
      cases h
      refine ⟨[], [], ?_, rfl⟩
      simp [List.isEmpty_iff.mp hp]
    · cases h
  | cons c rest ih =>
    intro i h
    simp only [firstIdx] at h
    split at h
    · rename_i hp
      cases h
      obtain ⟨t, ht⟩ := List.isPrefixOf_iff_prefix.mp hp
      exact ⟨[], t, by simp [← ht], rfl⟩
    · rename_i hp
      cases hr : firstIdx pat rest with
      | none => rw [hr] at h; simp at h
      | some j =>
        rw [hr] at h
        simp only [Option.map_some', Option.some.injEq] at h
        obtain ⟨pre, post, he, hl⟩ := ih j hr
        exact ⟨c :: pre, post, by simp [he], by simp [hl, h]⟩

/-- Soundness of `matchAfterOpen`: a successful match decomposes the tail
into greedy whitespace, a newline, the capture, the closing literal and the
rest. -/
theorem matchAfterOpen_spec (s content rest : List Char)
    (h : matchAfterOpen s = some (content, rest)) :
    ∃ ws, s = ws ++ ('\n' :: (content ++ (closeFence ++ rest))) ∧
      ws.all isJsSpace = true := by
  unfold matchAfterOpen at h
  cases hk : bestWsSplit s with
  | none => rw [hk] at h; simp at h
  | some k =>
    rw [hk] at h
    dsimp only at h
    cases he : firstIdx closeFence (s.drop (k + 1)) with
    | none => rw [he] at h; simp at h
    | some e =>
      rw [he] at h
      simp only [Option.some.injEq, Prod.mk.injEq] at h
      obtain ⟨hcontent, hrest⟩ := h
      have hcand : fenceCand s k = true := List.find?_some hk
      unfold fenceCand at hcand
      simp only [Bool.and_eq_true, beq_iff_eq] at hcand
      obtain ⟨⟨hws, hnl⟩, _⟩ := hcand
      obtain ⟨pre, post, hdecomp, hlen⟩ := firstIdx_spec closeFence (s.drop (k + 1)) e he
      obtain ⟨ys, hys⟩ := List.head?_eq_some_iff.mp hnl
      have hys' : ys = s.drop (k + 1) := by
        have ht := List.tail_drop s k
        rw [hys] at ht
        simpa using ht
      have hcontent' : content = pre := by
        rw [← hcontent, hdecomp, List.take_left' hlen]
      have hlen2 : (pre ++ closeFence).length = e + 4 := by
        have h4 : closeFence.length = 4 := rfl
        simp [List.length_append, hlen, h4]
      have hrest' : rest = post := by
        rw [← hrest, hdecomp, ← List.append_assoc, List.drop_left' hlen2]
      refine ⟨s.take k, ?_, hws⟩
      rw [hcontent', hrest', ← hdecomp, ← hys', ← hys]
      exact (List.take_append_drop k s).symm

/-- The shape of the text surrounding a returned payload: an opening
`repl` fence, optional same-line whitespace ending in a line break, the raw
inner text, then a line break and the closing fence; the payload is the
trimmed inner text. -/
def blockShape (s : List Char) (p : String) : Prop :=
  ∃ pre ws raw post,
    s = pre ++ (openFence ++ (ws ++ ('\n' :: (raw ++ (closeFence ++ post))))) ∧
    ws.all isJsSpace = true ∧ p = String.mk (jsTrimList raw)

theorem blockShape_prepend (t s : List Char) (p : String) (h : blockShape s p) :
    blockShape (t ++ s) p := by
  obtain ⟨pre, ws, raw, post, he, hws, hp⟩ := h
  exact ⟨t ++ pre, ws, raw, post, by rw [he, List.append_assoc], hws, hp⟩

/-- Every payload produced by the scan is non-empty and arises as the
trimmed inner text of a well-formed fenced block in the input. -/
theorem scanBlocks_spec :
    ∀ (fuel : Nat) (s : List Char) (p : String), p ∈ scanBlocks fuel s →
      p ≠ "" ∧ blockShape s p := by
  intro fuel
  induction fuel with
  | zero =>
    intro s p hp
    simp [scanBlocks] at hp
  | succ n ih =>
    intro s p hp
    simp only [scanBlocks] at hp
    cases hi : firstIdx openFence s with
    | none => rw [hi] at hp; simp at hp
    | some i =>
      rw [hi] at hp
      dsimp only at hp
      obtain ⟨pre0, post0, hdec, hlen⟩ := firstIdx_spec openFence s i hi
      have hdrop : (s.drop i).drop 7 = post0 := by
        rw [hdec, List.drop_left' hlen]
        exact List.drop_left' rfl
      rw [hdrop] at hp
      cases hm : matchAfterOpen post0 with
      | none =>
        rw [hm] at hp
        dsimp only at hp
        obtain ⟨hne, hshape⟩ := ih post0 p hp
        refine ⟨hne, ?_⟩
        rw [hdec, ← List.append_assoc]
        exact blockShape_prepend _ _ _ hshape
      | some cr =>
        obtain ⟨content, rest⟩ := cr
        rw [hm] at hp
        dsimp only at hp
        obtain ⟨ws, hpost0, hws⟩ := matchAfterOpen_spec post0 content rest hm
        cases hemp : (jsTrimList content).isEmpty with
        | true =>
          simp only [hemp, if_true] at hp
          obtain ⟨hne, hshape⟩ := ih rest p hp
          refine ⟨hne, ?_⟩
          have hT : s = (pre0 ++ (openFence ++ (ws ++ ('\n' :: (content ++ closeFence))))) ++ rest := by
            rw [hdec, hpost0]
            simp [List.append_assoc]
          rw [hT]
          exact blockShape_prepend _ _ _ hshape
        | false =>
          simp only [hemp, if_false] at hp
          rcases List.mem_cons.mp hp with hhead | htail
          · subst hhead
            have hne : jsTrimList content ≠ [] := by
              intro h0
              rw [h0] at hemp
              simp at hemp
            refine ⟨?_, pre0, ws, content, rest, by rw [hdec, hpost0], hws, rfl⟩
            intro hcontra
            exact hne (congrArg String.data hcontra)
          · obtain ⟨hne, hshape⟩ := ih rest p htail
            refine ⟨hne, ?_⟩
            have hT : s = (pre0 ++ (openFence ++ (ws ++ ('\n' :: (content ++ closeFence))))) ++ rest := by
              rw [hdec, hpost0]
              simp [List.append_assoc]
            rw [hT]
            exact blockShape_prepend _ _ _ hshape

/-- C10: `findCodeBlocks` yields a payload only for fenced blocks in which
the opening `repl` fence is terminated by a line break (the regex allows
trailing same-line whitespace before it) and the closing fence is preceded
by a line break; the single-line form yields no block; every payload is the
whitespace-trimmed, non-empty inner text; payloads appear in match order
(shown on a two-block document). -/
theorem C10_findCodeBlocks_contract :
    findCodeBlocks "```repl code```" = [] ∧
    (∀ (text : String) (p : String), p ∈ findCodeBlocks text →
      p ≠ "" ∧ blockShape text.data p) ∧
    findCodeBlocks "a```repl\nfirst\n```b```repl\n second \n```c" = ["first", "second"] := by
  refine ⟨by decide, ?_, by decide⟩
  intro text p hp
  exact scanBlocks_spec (text.data.length + 1) text.data p hp

/-- C10 witness: the decomposition applied to a concrete document and
payload. -/
theorem C10_witness :
    ("foo" : String) ≠ "" ∧ blockShape ("```repl\nfoo\n```" : String).data "foo" :=
  C10_findCodeBlocks_contract.2.1 "```repl\nfoo\n```" "foo" (by decide)

end Rllm
